import Mathlib

/-!
Shallow embedding of the model-lifecycle / offline-mode core of the
docling-saas repository (`src/src/model_manager.py` together with the
registry and enumerations from `src/src/config.py`), with theorems that
check the specified behaviour of its operations.

Conventions of the embedding:
* filesystem paths are lists of components; the filesystem is an explicit
  value (existing directories, and files with their byte sizes);
* the external libraries the manager talks to (`huggingface_hub`,
  `easyocr`, `rapidocr`, `shutil` copies) are oracles carried in a `World`
  value: each oracle either succeeds or produces the text of the exception
  the library raised;
* progress callbacks are modelled by the list of messages the code would
  send (empty when no callback is supplied), and the side effects of a
  download are recorded as an explicit effect list.
-/

namespace Docling

/-- A filesystem path, as its list of components. -/
abbrev FsPath := List String

/-- `isUnder d p` holds when `d` is an initial segment of `p`, i.e. the
entry at `p` lives at or below the directory `d` (or is `d` itself). -/
def isUnder {α : Type} [BEq α] : List α → List α → Bool
  | [], _ => true
  | _ :: _, [] => false
  | a :: d, b :: p => a == b && isUnder d p

/-- Model of the filesystem: the existing directories, and the existing
files with their sizes in bytes. -/
structure FS where
  dirs : List FsPath
  files : List (FsPath × Nat)
deriving DecidableEq

/-- A directory exists at `p`. -/
def FS.dirExists (fs : FS) (p : FsPath) : Bool := fs.dirs.any (fun d => d == p)

/-- A file exists at `p`. -/
def FS.fileExists (fs : FS) (p : FsPath) : Bool := fs.files.any (fun f => f.1 == p)

/-- `Path.exists()` in Python: true for a directory or a file. -/
def FS.pathExists (fs : FS) (p : FsPath) : Bool := fs.dirExists p || fs.fileExists p

/-- The initial segments of a path: the path itself and all its ancestors
(including the filesystem root `[]`). -/
def ancestors (p : FsPath) : List FsPath :=
  (List.range (p.length + 1)).map (fun n => p.take n)

/-- `Path.mkdir(parents=True, ...)`: create the directory and every missing
ancestor.  (In `clear_cache` the targets never pre-exist, so the
`exist_ok` flag makes no difference there.) -/
def FS.mkdirParents (fs : FS) (p : FsPath) : FS :=
  { fs with dirs := fs.dirs ++ ancestors p }

/-- `shutil.rmtree p`: remove the directory `p` and everything below it;
raises (modelled as `none`) when `p` is not a directory. -/
def FS.rmtree (fs : FS) (p : FsPath) : Option FS :=
  if fs.dirExists p then
    some { dirs := fs.dirs.filter (fun d => !(isUnder p d)),
           files := fs.files.filter (fun f => !(isUnder p f.1)) }
  else none

/-- The names of the immediate children of the directory `d`
(sub-directories and files), each listed once, as `Path.iterdir` yields
them. -/
def FS.childNames (fs : FS) (d : FsPath) : List String :=
  ((fs.dirs.filterMap
      (fun p => if isUnder d p && p.length == d.length + 1
                then (p.drop d.length).head? else none))
    ++ (fs.files.filterMap
      (fun f => if isUnder d f.1 && f.1.length == d.length + 1
                then (f.1.drop d.length).head? else none))).dedup

/-- `sub` occurs as a contiguous substring of `hay`. -/
def strContains (hay sub : String) : Bool :=
  (List.range (hay.data.length + 1)).any (fun i => isUnder sub.data (hay.data.drop i))

/-- `dir.glob("*" ++ sub ++ "*")`: the children of `dir` whose name has
`sub` as a substring. -/
def FS.globChildren (fs : FS) (d : FsPath) (sub : String) : List String :=
  (fs.childNames d).filter (fun n => strContains n sub)

/-- `shutil.copytree src dst`: `dst` becomes a copy of the directory `src`
(the destination did not exist beforehand on the code paths that call
this). -/
def remapUnder (src dst : FsPath) (p : FsPath) : Option FsPath :=
  if isUnder src p && p != src then some (dst ++ p.drop src.length) else none

def FS.copytree (fs : FS) (src dst : FsPath) : FS :=
  { dirs := fs.dirs ++ dst :: fs.dirs.filterMap (remapUnder src dst),
    files := fs.files ++ fs.files.filterMap
      (fun f => (remapUnder src dst f.1).map (fun q => (q, f.2))) }

/-- `shutil.copy2 src dst` for a plain file. -/
def FS.copyFile (fs : FS) (src dst : FsPath) : FS :=
  { fs with files := fs.files ++
      [(dst, ((fs.files.find? (fun f => f.1 == src)).map (fun f => f.2)).getD 0)] }

/-- `OCRLibrary` from `src/src/config.py`. -/
inductive OCRLibrary
  | rapidocr
  | easyocr
  | tesseract
deriving DecidableEq

/-- The `.value` of the string-valued enum member. -/
def OCRLibrary.value : OCRLibrary → String
  | .rapidocr => "rapidocr"
  | .easyocr => "easyocr"
  | .tesseract => "tesseract"

/-- One entry of the `MODELS_INFO` registry.  In the source each entry is a
dict; `hf_repo` entries are either a non-empty repo id or `None`, so the
`Option` match below coincides with Python truthiness on every registry
value. -/
structure ModelInfo where
  name : String
  description : String
  size_mb : Nat
  required : Bool
  hf_repo : Option String := none
  subfolder : Option String := none
  ocr_library : Option OCRLibrary := none
  language : Option String := none
deriving DecidableEq

/-- `MODELS_INFO` from `src/src/config.py`, in its (insertion-ordered)
iteration order. -/
def MODELS_INFO : List (String × ModelInfo) := [
  ("layout",
   { name := "Layout (Heron)",
     description := "Layout analysis for page structure detection",
     size_mb := 164, required := true,
     hf_repo := some "docling-project/docling-layout-heron" }),
  ("docling_models",
   { name := "Docling Models",
     description := "Core docling models (tableformer, picture classifier, etc.)",
     size_mb := 342, required := true,
     hf_repo := some "docling-project/docling-models" }),
  ("granite_docling_vlm",
   { name := "GraniteDocling VLM",
     description := "Vision-Language Model for document understanding",
     size_mb := 4800, required := false,
     hf_repo := some "ibm-granite/granite-vision-3.1-2b-preview" }),
  ("chunker_tokenizer",
   { name := "Chunker Tokenizer (BGE)",
     description := "Tokenizer used by HybridChunker for document chunking",
     size_mb := 1, required := true,
     hf_repo := some "BAAI/bge-small-en-v1.5" }),
  ("easyocr_en",
   { name := "EasyOCR (en)",
     description := "EasyOCR English model",
     size_mb := 85, required := false,
     ocr_library := some .easyocr, language := some "en" }),
  ("easyocr_ar",
   { name := "EasyOCR (ar)",
     description := "EasyOCR Arabic model",
     size_mb := 120, required := false,
     ocr_library := some .easyocr, language := some "ar" }),
  ("rapidocr",
   { name := "RapidOCR",
     description := "RapidOCR ONNX model",
     size_mb := 12, required := false,
     ocr_library := some .rapidocr })]

/-- `ModelStatus` from `src/src/models.py`. -/
structure ModelStatus where
  id : String
  name : String
  description : String
  size_mb : Nat
  required : Bool
  downloaded : Bool
  path : Option String
deriving DecidableEq

/-- The state a `ModelManager` instance owns: the root of the managed
directory tree. -/
structure ModelManager where
  models_dir : FsPath
deriving DecidableEq

def ModelManager.huggingface_dir (m : ModelManager) : FsPath :=
  m.models_dir ++ ["huggingface"]

def ModelManager.easyocr_dir (m : ModelManager) : FsPath :=
  m.models_dir ++ ["easyocr"]

/-- The hub cache below the managed huggingface directory
(`self.huggingface_dir / "hub"`). -/
def ModelManager.hub_cache (m : ModelManager) : FsPath :=
  m.huggingface_dir ++ ["hub"]

/-- The process environment as the manager code observes it: the
filesystem plus oracles for the external libraries.  Each `...Err` oracle
returns `none` on success and `some e` when the library raised an
exception whose text is `e`. -/
structure World where
  fs : FS
  home : FsPath
  /-- `some e` when importing `huggingface_hub` raises. -/
  hfImportErr : Option String
  /-- `scan_cache_dir dir`: the repos cached under `dir` as
  `(repo_id, size_on_disk)` pairs, in scan order. -/
  scanCache : FsPath → List (String × Nat)
  /-- `snapshot_download repo`: `none` on success. -/
  hfFetchErr : String → Option String
  /-- importing `easyocr` plus `easyocr.Reader(languages, ...)`: `none`
  when initialization completes. -/
  easyocrRunErr : List String → Option String
  /-- importing `rapidocr` succeeds. -/
  rapidocrImportOk : Bool
  /-- importing `rapidocr_onnxruntime` succeeds. -/
  rapidocrOnnxImportOk : Bool
  /-- the `TESSDATA_PREFIX` environment variable, parsed as a path. -/
  tessdataDir : Option FsPath
  /-- `shutil.copytree src ...`: `none` on success, keyed by source. -/
  copytreeErr : FsPath → Option String
  /-- `shutil.copy2 src ...`: `none` on success, keyed by source. -/
  copy2Err : FsPath → Option String

/-- `Path.home() / ".cache" / "huggingface" / "hub"`. -/
def default_hf_cache (w : World) : FsPath := w.home ++ [".cache", "huggingface", "hub"]

/-- `Path.home() / ".EasyOCR" / "model"`. -/
def default_easyocr_path (w : World) : FsPath := w.home ++ [".EasyOCR", "model"]

/-- The repo loop of `_check_hf_model_exists`: the first repo whose id
matches decides the answer, present only when its on-disk size is
positive. -/
def scanRepo : List (String × Nat) → String → Bool
  | [], _ => false
  | (rid, sz) :: rest, repo_id =>
    if rid == repo_id then decide (0 < sz) else scanRepo rest repo_id

/-- `ModelManager._check_hf_model_exists` (its `subfolder` argument is
accepted and unused, as in the source). -/
def check_hf_model_exists (w : World) (st : ModelManager) (repo_id : String)
    (_subfolder : Option String) : Bool :=
  match w.hfImportErr with
  | some _ => false
  | none =>
    if !(w.fs.pathExists st.hub_cache) then
      if !(w.fs.pathExists (default_hf_cache w)) then false
      else scanRepo (w.scanCache (default_hf_cache w)) repo_id
    else scanRepo (w.scanCache st.hub_cache) repo_id

/-- `ModelManager._check_easyocr_model_exists`. -/
def check_easyocr_model_exists (w : World) (st : ModelManager)
    (language : Option String) : Bool :=
  let localMatch :=
    if w.fs.pathExists st.easyocr_dir then
      match language with
      | some lang => !(w.fs.globChildren st.easyocr_dir lang).isEmpty
      | none => false
    else false
  if localMatch then true
  else
    if w.fs.pathExists (default_easyocr_path w) then
      match language with
      | some lang => !(w.fs.globChildren (default_easyocr_path w) lang).isEmpty
      | none => true
    else false

/-- `ModelManager._check_ocr_model_exists`. -/
def check_ocr_model_exists (w : World) (st : ModelManager) (library : OCRLibrary)
    (language : Option String) : Bool :=
  match library with
  | .easyocr => check_easyocr_model_exists w st language
  | .rapidocr => w.rapidocrImportOk || w.rapidocrOnnxImportOk
  | .tesseract =>
    let tessdata := w.tessdataDir.getD ["usr", "share", "tesseract-ocr", "tessdata"]
    match language with
    | some lang => w.fs.pathExists (tessdata ++ [lang ++ ".traineddata"])
    | none => w.fs.pathExists tessdata

/-- One iteration of the loop in `ModelManager.get_model_status`. -/
def model_status_of (w : World) (st : ModelManager) (model_id : String)
    (info : ModelInfo) : ModelStatus :=
  match info.hf_repo with
  | some repo =>
    let dl := check_hf_model_exists w st repo info.subfolder
    { id := model_id, name := info.name, description := info.description,
      size_mb := info.size_mb, required := info.required, downloaded := dl,
      path := if dl then some ("HF: " ++ repo) else none }
  | none =>
    match info.ocr_library with
    | some lib =>
      let dl := check_ocr_model_exists w st lib info.language
      { id := model_id, name := info.name, description := info.description,
        size_mb := info.size_mb, required := info.required, downloaded := dl,
        path := if dl then some ("OCR: " ++ lib.value) else none }
    | none =>
      { id := model_id, name := info.name, description := info.description,
        size_mb := info.size_mb, required := info.required, downloaded := false,
        path := none }

/-- `ModelManager.get_model_status`, over an explicit registry. -/
def get_model_status_of (reg : List (String × ModelInfo)) (w : World)
    (st : ModelManager) : List ModelStatus :=
  reg.map (fun p => model_status_of w st p.1 p.2)

/-- `ModelManager.get_model_status` (the source iterates the global
`MODELS_INFO`). -/
def get_model_status (w : World) (st : ModelManager) : List ModelStatus :=
  get_model_status_of MODELS_INFO w st

/-- `ModelManager.clear_cache`.  The `except` arm catches the `rmtree`
failure and reports `False` with the tree untouched. -/
def clear_cache (st : ModelManager) (fs : FS) : Bool × FS :=
  if fs.pathExists st.models_dir then
    match fs.rmtree st.models_dir with
    | some fs1 =>
      (true, ((fs1.mkdirParents st.models_dir).mkdirParents
                st.huggingface_dir).mkdirParents st.easyocr_dir)
    | none => (false, fs)
  else (true, fs)

/-- The result dict of `ModelManager.get_disk_usage`. -/
structure DiskUsage where
  total : Nat
  huggingface : Nat
  easyocr : Nat
deriving DecidableEq

/-- The inner `get_size` of `get_disk_usage`: the sum of the sizes of all
files strictly below `p` (what `p.rglob("*")` visits), zero when `p` does
not exist. -/
def get_size (fs : FS) (p : FsPath) : Nat :=
  if fs.pathExists p then
    ((fs.files.filter (fun f => isUnder p f.1 && f.1 != p)).map (fun f => f.2)).sum
  else 0

/-- `ModelManager.get_disk_usage`. -/
def get_disk_usage (st : ModelManager) (fs : FS) : DiskUsage :=
  let hf := get_size fs st.huggingface_dir
  let ez := get_size fs st.easyocr_dir
  { total := hf + ez, huggingface := hf, easyocr := ez }

/-- The observable side effects of a download call. -/
inductive Effect
  | mkdirp (p : FsPath)
  | netFetch (repo : String)
  | setEnvVar (name : String)
  | ocrInit (langs : List String)
deriving DecidableEq

/-- What a download call returns and does: its boolean result, the
progress messages sent to the callback in order, and its side effects. -/
structure DlResult where
  ok : Bool
  msgs : List String
  effects : List Effect
deriving DecidableEq

/-- The messages a `progress_callback` receives: none when the caller
passed `None`. -/
def emit (hasCb : Bool) (m : String) : List String := if hasCb then [m] else []

/-- `ModelManager.download_hf_model`.  The `try` block starts with the
`huggingface_hub` import, so an import failure is caught by the same
`except` and reported with the exception text. -/
def download_hf_model (w : World) (st : ModelManager) (repo_id : String)
    (hasCb : Bool) : DlResult :=
  match w.hfImportErr with
  | some e =>
    { ok := false,
      msgs := emit hasCb ("Failed to download " ++ repo_id ++ ": " ++ e),
      effects := [] }
  | none =>
    let m1 := emit hasCb ("Downloading " ++ repo_id ++ "...")
    match w.hfFetchErr repo_id with
    | none =>
      { ok := true, msgs := m1 ++ emit hasCb ("Downloaded " ++ repo_id),
        effects := [.mkdirp st.hub_cache, .netFetch repo_id] }
    | some e =>
      { ok := false,
        msgs := m1 ++ emit hasCb ("Failed to download " ++ repo_id ++ ": " ++ e),
        effects := [.mkdirp st.hub_cache, .netFetch repo_id] }

/-- Python `repr` of a string, as it appears when a list of strings is
formatted into a progress message. -/
def pyQuote (s : String) : String :=
  String.singleton (Char.ofNat 39) ++ s ++ String.singleton (Char.ofNat 39)

/-- Python `str` of a list of strings. -/
def pyListRepr (xs : List String) : String :=
  "[" ++ String.intercalate ", " (xs.map pyQuote) ++ "]"

/-- `ModelManager.download_easyocr_model`.  The `easyocr` import and the
`Reader` initialization are merged into the single `easyocrRunErr`
oracle: every exception from that region is caught by the same `except`
arm.  The effect list records the attempted environment write and engine
initialization. -/
def download_easyocr_model (w : World) (_st : ModelManager)
    (languages : List String) (hasCb : Bool) : DlResult :=
  let m1 := emit hasCb ("Downloading EasyOCR models for " ++ pyListRepr languages ++ "...")
  match w.easyocrRunErr languages with
  | none =>
    { ok := true,
      msgs := m1 ++ emit hasCb ("EasyOCR models downloaded for " ++ pyListRepr languages),
      effects := [.setEnvVar "EASYOCR_MODULE_PATH", .ocrInit languages] }
  | some e =>
    { ok := false,
      msgs := m1 ++ emit hasCb ("Failed to download EasyOCR: " ++ e),
      effects := [.setEnvVar "EASYOCR_MODULE_PATH", .ocrInit languages] }

/-- `ModelManager.download_model`, over an explicit registry.  An unknown
key returns `False` before the `try` block, with no message and no
effect. -/
def download_model_in (reg : List (String × ModelInfo)) (w : World)
    (st : ModelManager) (model_id : String) (hasCb : Bool) : DlResult :=
  match reg.lookup model_id with
  | none => { ok := false, msgs := [], effects := [] }
  | some info =>
    match info.hf_repo with
    | some repo => download_hf_model w st repo hasCb
    | none =>
      match info.ocr_library with
      | some .easyocr =>
        download_easyocr_model w st [info.language.getD "en"] hasCb
      | some .rapidocr =>
        { ok := true,
          msgs := emit hasCb "RapidOCR models are bundled with the package",
          effects := [] }
      | some .tesseract =>
        { ok := false,
          msgs := emit hasCb "Tesseract models must be installed via system package manager",
          effects := [] }
      | none => { ok := false, msgs := [], effects := [] }

/-- `ModelManager.download_model` against the compiled-in registry. -/
def download_model (w : World) (st : ModelManager) (model_id : String)
    (hasCb : Bool) : DlResult :=
  download_model_in MODELS_INFO w st model_id hasCb

/-- The aggregate of a batch download: the result map (as an ordered
association list), the model ids actually passed to `download_model`, and
the progress messages. -/
structure BatchResult where
  results : List (String × Bool)
  calls : List String
  msgs : List String
deriving DecidableEq

/-- The loop of `ModelManager.download_all`: `reg` is the remaining
iteration, `fullreg` the registry `download_model` consults. -/
def download_all_go (fullreg : List (String × ModelInfo)) (w : World)
    (st : ModelManager) (include_optional : Bool) (hasCb : Bool) :
    List (String × ModelInfo) → BatchResult
  | [] => { results := [], calls := [], msgs := [] }
  | p :: rest =>
    if !include_optional && !p.2.required then
      download_all_go fullreg w st include_optional hasCb rest
    else
      let r := download_model_in fullreg w st p.1 hasCb
      let tail := download_all_go fullreg w st include_optional hasCb rest
      { results := (p.1, r.ok) :: tail.results,
        calls := p.1 :: tail.calls,
        msgs := emit hasCb ("Checking " ++ p.2.name ++ "...") ++ r.msgs ++ tail.msgs }

/-- `ModelManager.download_all`, over an explicit registry. -/
def download_all_in (reg : List (String × ModelInfo)) (w : World)
    (st : ModelManager) (include_optional : Bool) (hasCb : Bool) : BatchResult :=
  download_all_go reg w st include_optional hasCb reg

/-- `ModelManager.download_all` against the compiled-in registry. -/
def download_all (w : World) (st : ModelManager) (include_optional : Bool)
    (hasCb : Bool) : BatchResult :=
  download_all_in MODELS_INFO w st include_optional hasCb

/-- `ModelManager.download_required`. -/
def download_required (w : World) (st : ModelManager) (hasCb : Bool) : BatchResult :=
  download_all w st false hasCb

/-- The running state of `ModelManager.copy_from_cache`: the result map so
far, the messages so far, and the evolving filesystem. -/
structure CopyState where
  results : List (String × Bool)
  msgs : List String
  fs : FS
deriving DecidableEq

/-- One iteration of the HuggingFace loop of `copy_from_cache`. -/
def copy_hf_item (w : World) (st : ModelManager) (hasCb : Bool)
    (s : CopyState) (n : String) : CopyState :=
  if n.startsWith "models--" then
    if !(s.fs.pathExists (st.hub_cache ++ [n])) then
      match w.copytreeErr (default_hf_cache w ++ [n]) with
      | none =>
        { results := s.results ++ [(n, true)],
          msgs := s.msgs ++ emit hasCb ("  Copying " ++ n ++ "..."),
          fs := s.fs.copytree (default_hf_cache w ++ [n]) (st.hub_cache ++ [n]) }
      | some e =>
        { results := s.results ++ [(n, false)],
          msgs := s.msgs ++ emit hasCb ("  Copying " ++ n ++ "...")
                  ++ emit hasCb ("  Failed: " ++ e),
          fs := s.fs }
    else s
  else s

/-- The HuggingFace block of `copy_from_cache`. -/
def copy_hf_phase (w : World) (st : ModelManager) (hasCb : Bool)
    (s : CopyState) : CopyState :=
  if s.fs.pathExists (default_hf_cache w) then
    let s1 : CopyState :=
      { results := s.results,
        msgs := s.msgs ++ emit hasCb "Copying HuggingFace models...",
        fs := s.fs.mkdirParents st.hub_cache }
    (s1.fs.childNames (default_hf_cache w)).foldl (copy_hf_item w st hasCb) s1
  else s

/-- One iteration of the EasyOCR loop of `copy_from_cache`; note the
result key is `"easyocr_"` prefixed to the file name. -/
def copy_easyocr_item (w : World) (st : ModelManager) (hasCb : Bool)
    (s : CopyState) (n : String) : CopyState :=
  if !(s.fs.pathExists (st.easyocr_dir ++ [n])) then
    match w.copy2Err (default_easyocr_path w ++ [n]) with
    | none =>
      { results := s.results ++ [("easyocr_" ++ n, true)],
        msgs := s.msgs ++ emit hasCb ("  Copying " ++ n ++ "..."),
        fs := s.fs.copyFile (default_easyocr_path w ++ [n]) (st.easyocr_dir ++ [n]) }
    | some e =>
      { results := s.results ++ [("easyocr_" ++ n, false)],
        msgs := s.msgs ++ emit hasCb ("  Copying " ++ n ++ "...")
                ++ emit hasCb ("  Failed: " ++ e),
        fs := s.fs }
  else s

/-- The EasyOCR block of `copy_from_cache`. -/
def copy_easyocr_phase (w : World) (st : ModelManager) (hasCb : Bool)
    (s : CopyState) : CopyState :=
  if s.fs.pathExists (default_easyocr_path w) then
    let s1 : CopyState :=
      { s with msgs := s.msgs ++ emit hasCb "Copying EasyOCR models..." }
    (s1.fs.childNames (default_easyocr_path w)).foldl (copy_easyocr_item w st hasCb) s1
  else s

/-- `ModelManager.copy_from_cache`: the HuggingFace block, then the
EasyOCR block. -/
def copy_from_cache (w : World) (st : ModelManager) (hasCb : Bool) : CopyState :=
  copy_easyocr_phase w st hasCb
    (copy_hf_phase w st hasCb { results := [], msgs := [], fs := w.fs })

/-- "The underlying fetch of the download driver for `info` raises an
exception whose text is `e`": for a hub-backed descriptor that is
the module import or the snapshot fetch, for an EasyOCR descriptor the engine
initialization; the other OCR backends perform no fetch. -/
def fetch_raises (w : World) (info : ModelInfo) (e : String) : Prop :=
  match info.hf_repo with
  | some repo => w.hfImportErr = some e ∨ (w.hfImportErr = none ∧ w.hfFetchErr repo = some e)
  | none =>
    match info.ocr_library with
    | some .easyocr => w.easyocrRunErr [info.language.getD "en"] = some e
    | _ => False

/-- A concrete manager used to instantiate theorems. -/
def mgr0 : ModelManager := { models_dir := ["app", "models"] }

/-- An empty filesystem. -/
def fsEmpty : FS := { dirs := [], files := [] }

/-- A concrete world where every backend succeeds and every cache is
empty; scenarios below override individual fields. -/
def baseWorld : World :=
  { fs := fsEmpty, home := ["home", "user"], hfImportErr := none,
    scanCache := fun _ => [], hfFetchErr := fun _ => none,
    easyocrRunErr := fun _ => none,
    rapidocrImportOk := false, rapidocrOnnxImportOk := false,
    tessdataDir := none,
    copytreeErr := fun _ => none, copy2Err := fun _ => none }

/-- A RapidOCR-backed descriptor, for instantiating theorems. -/
def rapidInfo : ModelInfo :=
  { name := "R", description := "r", size_mb := 1, required := false,
    ocr_library := some .rapidocr }

/-- A Tesseract-backed descriptor, for instantiating theorems. -/
def tessInfo : ModelInfo :=
  { name := "T", description := "t", size_mb := 1, required := false,
    ocr_library := some .tesseract }

/-- A registry holding one RapidOCR-backed and one Tesseract-backed
descriptor, for instantiating theorems. -/
def regRT : List (String × ModelInfo) := [("rapid", rapidInfo), ("tess", tessInfo)]

/-- The filesystem `clear_cache` leaves behind on its success path: the
managed subtree is gone and the root plus the two required
subdirectories are freshly created (spelled out so theorems can reason
about what exists afterwards; `clear_cache_success` proves it equal to
what `clear_cache` produces). -/
def clearedFS (st : ModelManager) (fs : FS) : FS :=
  { dirs := fs.dirs.filter (fun d => !(isUnder st.models_dir d))
      ++ ancestors st.models_dir ++ ancestors st.huggingface_dir
      ++ ancestors st.easyocr_dir,
    files := fs.files.filter (fun f => !(isUnder st.models_dir f.1)) }

/-- A world where the managed tree exists and the default system-wide
HuggingFace cache holds the "layout" repository. -/
def c2world : World :=
  { baseWorld with
    fs := { dirs := [["app", "models"], ["app", "models", "huggingface"],
                     ["app", "models", "easyocr"],
                     ["home", "user", ".cache", "huggingface", "hub"]],
            files := [] },
    scanCache := fun p =>
      if p == ["home", "user", ".cache", "huggingface", "hub"] then
        [("docling-project/docling-layout-heron", 104857600)]
      else [] }

/-- A world where the default EasyOCR model directory holds one model
file and the managed tree is fresh. -/
def wC3 : World :=
  { baseWorld with
    fs := { dirs := [["app", "models"], ["app", "models", "huggingface"],
                     ["app", "models", "easyocr"],
                     ["home", "user", ".EasyOCR", "model"]],
            files := [(["home", "user", ".EasyOCR", "model", "en_g2.pth"], 5)] } }

/-- A freshly created managed tree: the three managed directories exist
and no file does. -/
def fsTree : FS :=
  { dirs := [["app", "models"], ["app", "models", "huggingface"],
             ["app", "models", "easyocr"]],
    files := [] }

/-- The registry entry of the "layout" model. -/
def layoutInfo : ModelInfo :=
  { name := "Layout (Heron)",
    description := "Layout analysis for page structure detection",
    size_mb := 164, required := true,
    hf_repo := some "docling-project/docling-layout-heron" }

end Docling

/-! ### Theorems -/

namespace Docling

theorem isUnder_refl {α : Type} [BEq α] [LawfulBEq α] (l : List α) :
    isUnder l l = true := by
  induction l with
  | nil => rfl
  | cons a t ih => simp [isUnder, ih]

theorem isUnder_append {α : Type} [BEq α] [LawfulBEq α] (d r : List α) :
    isUnder d (d ++ r) = true := by
  induction d with
  | nil => rfl
  | cons a t ih => simp [isUnder, ih]

theorem isUnder_length_le {α : Type} [BEq α] [LawfulBEq α] :
    ∀ {d p : List α}, isUnder d p = true → d.length ≤ p.length := by
  intro d
  induction d with
  | nil => intro p _; exact Nat.zero_le _
  | cons a t ih =>
    intro p h
    cases p with
    | nil => simp [isUnder] at h
    | cons b q =>
      simp only [isUnder, Bool.and_eq_true] at h
      simp only [List.length_cons]
      exact Nat.succ_le_succ (ih h.2)

theorem isUnder_trans {α : Type} [BEq α] [LawfulBEq α] :
    ∀ {a b c : List α}, isUnder a b = true → isUnder b c = true → isUnder a c = true := by
  intro a
  induction a with
  | nil => intro b c _ _; rfl
  | cons x t ih =>
    intro b c hab hbc
    cases b with
    | nil => simp [isUnder] at hab
    | cons y u =>
      cases c with
      | nil => simp [isUnder] at hbc
      | cons z v =>
        simp only [isUnder, Bool.and_eq_true, beq_iff_eq] at hab hbc ⊢
        exact ⟨hab.1.trans hbc.1, ih hab.2 hbc.2⟩

theorem eq_of_isUnder_of_length {α : Type} [BEq α] [LawfulBEq α] :
    ∀ {d p : List α}, isUnder d p = true → p.length ≤ d.length → d = p := by
  intro d
  induction d with
  | nil =>
    intro p _ hlen
    cases p with
    | nil => rfl
    | cons b q => simp at hlen
  | cons a t ih =>
    intro p h hlen
    cases p with
    | nil => simp [isUnder] at h
    | cons b q =>
      simp only [isUnder, Bool.and_eq_true, beq_iff_eq] at h
      simp only [List.length_cons, Nat.succ_le_succ_iff] at hlen
      rw [h.1, ih h.2 hlen]

theorem mem_ancestors {q p : FsPath} :
    q ∈ ancestors p ↔ ∃ n, n ≤ p.length ∧ q = p.take n := by
  simp only [ancestors, List.mem_map, List.mem_range, Nat.lt_succ_iff]
  constructor
  · rintro ⟨n, hn, rfl⟩; exact ⟨n, hn, rfl⟩
  · rintro ⟨n, hn, rfl⟩; exact ⟨n, hn, rfl⟩

theorem length_le_of_mem_ancestors {q p : FsPath} (h : q ∈ ancestors p) :
    q.length ≤ p.length := by
  obtain ⟨n, _, rfl⟩ := mem_ancestors.1 h
  simp [List.length_take_le n p]

theorem self_mem_ancestors (p : FsPath) : p ∈ ancestors p :=
  mem_ancestors.2 ⟨p.length, le_rfl, (List.take_length p).symm⟩

theorem dirExists_iff {fs : FS} {p : FsPath} :
    fs.dirExists p = true ↔ p ∈ fs.dirs := by
  simp [FS.dirExists, List.any_eq_true]

theorem fileExists_iff {fs : FS} {p : FsPath} :
    fs.fileExists p = true ↔ ∃ f ∈ fs.files, f.1 = p := by
  simp [FS.fileExists, List.any_eq_true]

theorem strContains_append_self (x e : String) :
    strContains (x ++ e) e = true := by
  have hdata : (x ++ e).data = x.data ++ e.data := rfl
  simp only [strContains, List.any_eq_true, List.mem_range]
  refine ⟨x.data.length, ?_, ?_⟩
  · rw [hdata]; simp [Nat.lt_succ_iff]
  · rw [hdata, List.drop_left]; exact isUnder_refl _

/-- C10: when the managed root does not exist, `clearCache` reports
success and leaves the filesystem exactly as it was, creating neither the
root nor either required subdirectory. -/
theorem clear_cache_missing_root (st : ModelManager) (fs : FS)
    (h : fs.pathExists st.models_dir = false) :
    clear_cache st fs = (true, fs) := by
  simp [clear_cache, h]

theorem clear_cache_missing_root_witness :
    fsEmpty.pathExists mgr0.models_dir = false ∧
      clear_cache mgr0 fsEmpty = (true, fsEmpty) :=
  ⟨by decide, clear_cache_missing_root mgr0 fsEmpty (by decide)⟩

/-- C1 counterexample: against the compiled-in registry, an unknown key
produces a result identical to the one a failing hub download produces
(here: `huggingface_hub` raising on import while downloading "layout"),
so the unknown-key failure is the plain boolean `false`, not an explicit
NotFound error distinguishable from a download failure. -/
theorem download_model_unknown_key_indistinguishable :
    download_model { baseWorld with hfImportErr := some "boom" } mgr0
        "nonexistent-key" false
      = download_model { baseWorld with hfImportErr := some "boom" } mgr0
        "layout" false
    ∧ (download_model { baseWorld with hfImportErr := some "boom" } mgr0
        "nonexistent-key" false).ok = false := by
  constructor <;> rfl

/-- C1 amended: for every key absent from the registry, `downloadModel`
returns `false` immediately, emitting no progress message and performing
no filesystem or network effect; the failure is returned as the plain
boolean `false` (the same value a download failure returns), not as a
distinguishable NotFound error. -/
theorem download_model_unknown_key (w : World) (st : ModelManager)
    (model_id : String) (hasCb : Bool)
    (h : MODELS_INFO.lookup model_id = none) :
    download_model w st model_id hasCb = { ok := false, msgs := [], effects := [] } := by
  simp [download_model, download_model_in, h]

theorem download_model_unknown_key_witness :
    MODELS_INFO.lookup "nonexistent-key" = none ∧
      download_model baseWorld mgr0 "nonexistent-key" true
        = { ok := false, msgs := [], effects := [] } :=
  ⟨by decide, download_model_unknown_key baseWorld mgr0 "nonexistent-key" true (by decide)⟩

/-- C7: for any registry descriptor backed by RapidOCR, `downloadModel`
returns `true` with only the bundled-models message and no side effect
(in particular no network I/O); for any descriptor backed by Tesseract it
returns `false` with only the system-package message and no side
effect. -/
theorem download_model_bundled_ocr (reg : List (String × ModelInfo)) (w : World)
    (st : ModelManager) (model_id : String) (info : ModelInfo) (hasCb : Bool)
    (hlk : reg.lookup model_id = some info) (hhf : info.hf_repo = none) :
    (info.ocr_library = some OCRLibrary.rapidocr →
      download_model_in reg w st model_id hasCb =
        { ok := true,
          msgs := emit hasCb "RapidOCR models are bundled with the package",
          effects := [] })
    ∧ (info.ocr_library = some OCRLibrary.tesseract →
      download_model_in reg w st model_id hasCb =
        { ok := false,
          msgs := emit hasCb "Tesseract models must be installed via system package manager",
          effects := [] }) := by
  constructor <;> intro hocr <;> simp [download_model_in, hlk, hhf, hocr]

theorem download_model_bundled_ocr_witness :
    (download_model_in regRT baseWorld mgr0 "rapid" true).ok = true
    ∧ (download_model_in regRT baseWorld mgr0 "rapid" true).effects = []
    ∧ (download_model_in regRT baseWorld mgr0 "tess" true).ok = false
    ∧ (download_model_in regRT baseWorld mgr0 "tess" true).effects = [] := by
  have hr := (download_model_bundled_ocr regRT baseWorld mgr0 "rapid" rapidInfo true
    (by decide) (by decide)).1 (by decide)
  have ht := (download_model_bundled_ocr regRT baseWorld mgr0 "tess" tessInfo true
    (by decide) (by decide)).2 (by decide)
  rw [hr, ht]
  exact ⟨rfl, rfl, rfl, rfl⟩

theorem download_all_go_spec (fullreg : List (String × ModelInfo)) (w : World)
    (st : ModelManager) (io hasCb : Bool) (reg : List (String × ModelInfo)) :
    ((download_all_go fullreg w st io hasCb reg).results.map Prod.fst
      = (reg.filter (fun p => io || p.2.required)).map Prod.fst)
    ∧ ((download_all_go fullreg w st io hasCb reg).calls
      = (reg.filter (fun p => io || p.2.required)).map Prod.fst) := by
  induction reg with
  | nil => exact ⟨rfl, rfl⟩
  | cons p rest ih =>
    by_cases h : (io || p.2.required) = true
    · have hskip : (!io && !p.2.required) = false := by
        revert h; cases io <;> cases p.2.required <;> simp
      simp [download_all_go, hskip, List.filter_cons, h, ih.1, ih.2]
    · have h2 : (io || p.2.required) = false := by
        revert h; cases (io || p.2.required) <;> simp
      have hskip : (!io && !p.2.required) = true := by
        revert h2; cases io <;> cases p.2.required <;> simp
      simp [download_all_go, hskip, List.filter_cons, h2, ih.1, ih.2]

/-- C5: `downloadAll` iterates the registry in order; the returned result
map is keyed, in registry order, by exactly the descriptor keys
considered (all keys when `includeOptional`, only the required ones
otherwise) whatever each individual download returns; the keys passed to
the download path coincide with that list, so with `includeOptional`
false every invoked key belongs to a required descriptor and a failure on
one model never removes a later model from the batch. -/
theorem download_all_keys (reg : List (String × ModelInfo)) (w : World)
    (st : ModelManager) (io hasCb : Bool) :
    ((download_all_in reg w st io hasCb).results.map Prod.fst
      = (reg.filter (fun p => io || p.2.required)).map Prod.fst)
    ∧ ((download_all_in reg w st io hasCb).calls
      = (reg.filter (fun p => io || p.2.required)).map Prod.fst)
    ∧ (∀ k, io = false → k ∈ (download_all_in reg w st io hasCb).calls →
        ∃ info, (k, info) ∈ reg ∧ info.required = true) := by
  refine ⟨(download_all_go_spec reg w st io hasCb reg).1,
          (download_all_go_spec reg w st io hasCb reg).2, ?_⟩
  intro k hio hk
  simp only [download_all_in] at hk
  rw [(download_all_go_spec reg w st io hasCb reg).2] at hk
  simp only [List.mem_map, List.mem_filter] at hk
  obtain ⟨p, ⟨hmem, hpred⟩, rfl⟩ := hk
  rw [hio] at hpred
  simp only [Bool.false_or] at hpred
  exact ⟨p.2, hmem, hpred⟩

theorem download_all_keys_witness :
    ((download_all_in MODELS_INFO baseWorld mgr0 false false).results.map Prod.fst
      = ["layout", "docling_models", "chunker_tokenizer"])
    ∧ (∃ info, ("layout", info) ∈ MODELS_INFO ∧ info.required = true) := by
  refine ⟨(download_all_keys MODELS_INFO baseWorld mgr0 false false).1.trans (by decide), ?_⟩
  exact (download_all_keys MODELS_INFO baseWorld mgr0 false false).2.2 "layout" rfl (by decide)

theorem model_status_of_id (w : World) (st : ModelManager) (i : String)
    (info : ModelInfo) : (model_status_of w st i info).id = i := by
  cases hr : info.hf_repo with
  | some r => simp [model_status_of, hr]
  | none =>
    cases ho : info.ocr_library with
    | some l => simp [model_status_of, hr, ho]
    | none => simp [model_status_of, hr, ho]

theorem model_status_of_path (w : World) (st : ModelManager) (i : String)
    (info : ModelInfo) :
    (model_status_of w st i info).path.isSome = (model_status_of w st i info).downloaded := by
  cases hr : info.hf_repo with
  | some r =>
    cases hdl : check_hf_model_exists w st r info.subfolder <;>
      simp [model_status_of, hr, hdl]
  | none =>
    cases ho : info.ocr_library with
    | some l =>
      cases hdl : check_ocr_model_exists w st l info.language <;>
        simp [model_status_of, hr, ho, hdl]
    | none => simp [model_status_of, hr, ho]

/-- C9: `getModelStatus` returns one status per registry descriptor, in
registry order (the id column equals the registry key column), and in
every returned status the path string is populated exactly when
`downloaded` is true. -/
theorem get_model_status_shape (w : World) (st : ModelManager) :
    ((get_model_status w st).map (fun s => s.id) = MODELS_INFO.map Prod.fst)
    ∧ ∀ s ∈ get_model_status w st, s.path.isSome = s.downloaded := by
  constructor
  · simp only [get_model_status, get_model_status_of, List.map_map]
    exact List.map_congr_left (fun p _ => model_status_of_id w st p.1 p.2)
  · intro s hs
    simp only [get_model_status, get_model_status_of, List.mem_map] at hs
    obtain ⟨p, _, he⟩ := hs
    rw [← he]
    exact model_status_of_path w st p.1 p.2

theorem get_model_status_shape_witness :
    ((get_model_status baseWorld mgr0).map (fun s => s.id) = MODELS_INFO.map Prod.fst)
    ∧ (model_status_of baseWorld mgr0 "layout" layoutInfo).path.isSome
        = (model_status_of baseWorld mgr0 "layout" layoutInfo).downloaded :=
  ⟨(get_model_status_shape baseWorld mgr0).1,
   (get_model_status_shape baseWorld mgr0).2
     (model_status_of baseWorld mgr0 "layout" layoutInfo) (by decide)⟩

/-- C4: for every registry descriptor whose download driver's underlying
fetch raises an exception with text `e`, `downloadModel` with a progress
sink returns `false` and at least one progress message contains `e`; in
the embedding the drivers are total functions, so no exception crosses
the driver boundary. -/
theorem download_driver_failure (reg : List (String × ModelInfo)) (w : World)
    (st : ModelManager) (model_id : String) (info : ModelInfo) (e : String)
    (hlk : reg.lookup model_id = some info) (hf : fetch_raises w info e) :
    ((download_model_in reg w st model_id true).ok = false)
    ∧ ((download_model_in reg w st model_id true).msgs.any
        (fun m => strContains m e) = true) := by
  cases hr : info.hf_repo with
  | some repo =>
    simp only [fetch_raises, hr] at hf
    rcases hf with himp | ⟨hnone, hfe⟩
    · simp [download_model_in, hlk, hr, download_hf_model, himp, emit,
        strContains_append_self]
    · simp [download_model_in, hlk, hr, download_hf_model, hnone, hfe, emit,
        strContains_append_self]
  | none =>
    cases ho : info.ocr_library with
    | some lib =>
      cases lib with
      | easyocr =>
        simp only [fetch_raises, hr, ho] at hf
        simp [download_model_in, hlk, hr, ho, download_easyocr_model, hf, emit,
          strContains_append_self]
      | rapidocr => simp [fetch_raises, hr, ho] at hf
      | tesseract => simp [fetch_raises, hr, ho] at hf
    | none => simp [fetch_raises, hr, ho] at hf

theorem download_driver_failure_witness :
    ((download_model_in MODELS_INFO
        { baseWorld with hfFetchErr := fun _ => some "neterr" } mgr0
        "layout" true).ok = false)
    ∧ ((download_model_in MODELS_INFO
        { baseWorld with hfFetchErr := fun _ => some "neterr" } mgr0
        "layout" true).msgs.any (fun m => strContains m "neterr") = true) :=
  download_driver_failure MODELS_INFO
    { baseWorld with hfFetchErr := fun _ => some "neterr" } mgr0
    "layout" layoutInfo "neterr" (by decide) (Or.inr ⟨rfl, rfl⟩)

/-- C6: every backend probe reports `false` instead of raising when its
backend is unavailable: the hub probe when the hub library cannot
be imported or when both cache directories are missing, the EasyOCR probe
when both model directories are missing, the RapidOCR probe when neither
of its libraries can be imported, and the Tesseract probe when its data
directory or language file is missing.  (All probes are total boolean
functions in the embedding: none can raise.) -/
theorem probes_unavailable (w : World) (st : ModelManager) :
    (∀ repo sub, w.hfImportErr.isSome = true →
      check_hf_model_exists w st repo sub = false)
    ∧ (∀ repo sub, w.fs.pathExists st.hub_cache = false →
        w.fs.pathExists (default_hf_cache w) = false →
        check_hf_model_exists w st repo sub = false)
    ∧ (∀ lang, w.fs.pathExists st.easyocr_dir = false →
        w.fs.pathExists (default_easyocr_path w) = false →
        check_easyocr_model_exists w st lang = false)
    ∧ (∀ lang, w.rapidocrImportOk = false → w.rapidocrOnnxImportOk = false →
        check_ocr_model_exists w st OCRLibrary.rapidocr lang = false)
    ∧ (∀ lang dir, w.tessdataDir = some dir →
        w.fs.pathExists (dir ++ [lang ++ ".traineddata"]) = false →
        check_ocr_model_exists w st OCRLibrary.tesseract (some lang) = false)
    ∧ (∀ dir, w.tessdataDir = some dir → w.fs.pathExists dir = false →
        check_ocr_model_exists w st OCRLibrary.tesseract none = false) := by
  refine ⟨?_, ?_, ?_, ?_, ?_, ?_⟩
  · intro repo sub h
    obtain ⟨e, he⟩ := Option.isSome_iff_exists.1 h
    simp [check_hf_model_exists, he]
  · intro repo sub h1 h2
    cases he : w.hfImportErr with
    | some e => simp [check_hf_model_exists, he]
    | none => simp [check_hf_model_exists, he, h1, h2]
  · intro lang h1 h2
    simp [check_easyocr_model_exists, h1, h2]
  · intro lang h1 h2
    simp [check_ocr_model_exists, h1, h2]
  · intro lang dir hdir h
    simp [check_ocr_model_exists, hdir, h]
  · intro dir hdir h
    simp [check_ocr_model_exists, hdir, h]

theorem probes_unavailable_witness :
    (check_hf_model_exists
      { baseWorld with hfImportErr := some "nomodule" } mgr0 "r" none = false)
    ∧ (check_easyocr_model_exists baseWorld mgr0 (some "en") = false)
    ∧ (check_ocr_model_exists baseWorld mgr0 OCRLibrary.rapidocr none = false)
    ∧ (check_ocr_model_exists { baseWorld with tessdataDir := some ["nosuch"] }
        mgr0 OCRLibrary.tesseract (some "eng") = false) :=
  ⟨(probes_unavailable { baseWorld with hfImportErr := some "nomodule" } mgr0).1
      "r" none (by decide),
   (probes_unavailable baseWorld mgr0).2.2.1 (some "en") (by decide) (by decide),
   (probes_unavailable baseWorld mgr0).2.2.2.1 none (by decide) (by decide),
   (probes_unavailable { baseWorld with tessdataDir := some ["nosuch"] } mgr0).2.2.2.2.1
      "eng" ["nosuch"] rfl (by decide)⟩

/-- C8: `getDiskUsage` always reports `total` as the sum of the two
components; each component is the sum of the sizes of the files below its
managed subdirectory when that subdirectory exists and zero when it does
not; with no file anywhere under the managed root the result is all
zeroes. -/
theorem get_disk_usage_spec (st : ModelManager) (fs : FS) :
    ((get_disk_usage st fs).total
      = (get_disk_usage st fs).huggingface + (get_disk_usage st fs).easyocr)
    ∧ (fs.pathExists st.huggingface_dir = true →
        (get_disk_usage st fs).huggingface
          = ((fs.files.filter (fun f =>
              isUnder st.huggingface_dir f.1 && f.1 != st.huggingface_dir)).map
              (fun f => f.2)).sum)
    ∧ (fs.pathExists st.easyocr_dir = true →
        (get_disk_usage st fs).easyocr
          = ((fs.files.filter (fun f =>
              isUnder st.easyocr_dir f.1 && f.1 != st.easyocr_dir)).map
              (fun f => f.2)).sum)
    ∧ (fs.pathExists st.huggingface_dir = false →
        (get_disk_usage st fs).huggingface = 0)
    ∧ (fs.pathExists st.easyocr_dir = false →
        (get_disk_usage st fs).easyocr = 0)
    ∧ ((∀ f ∈ fs.files, isUnder st.models_dir f.1 = false) →
        get_disk_usage st fs = { total := 0, huggingface := 0, easyocr := 0 }) := by
  have hz : (∀ f ∈ fs.files, isUnder st.models_dir f.1 = false) →
      ∀ r : List String, get_size fs (st.models_dir ++ r) = 0 := by
    intro h r
    unfold get_size
    split
    · have hnil : fs.files.filter (fun f =>
          isUnder (st.models_dir ++ r) f.1 && f.1 != (st.models_dir ++ r)) = [] := by
        rw [List.filter_eq_nil_iff]
        intro f hf
        simp only [Bool.and_eq_true, not_and]
        intro h1 _
        exact absurd (isUnder_trans (isUnder_append st.models_dir r) h1)
          (by simp [h f hf])
      rw [hnil]; rfl
    · rfl
  refine ⟨rfl, ?_, ?_, ?_, ?_, ?_⟩
  · intro h; simp [get_disk_usage, get_size, h]
  · intro h; simp [get_disk_usage, get_size, h]
  · intro h; simp [get_disk_usage, get_size, h]
  · intro h; simp [get_disk_usage, get_size, h]
  · intro h
    have h1 := hz h ["huggingface"]
    have h2 := hz h ["easyocr"]
    simp only [get_disk_usage]
    rw [show st.models_dir ++ ["huggingface"] = st.huggingface_dir from rfl] at h1
    rw [show st.models_dir ++ ["easyocr"] = st.easyocr_dir from rfl] at h2
    rw [h1, h2]

theorem get_disk_usage_spec_witness :
    (fsTree.pathExists mgr0.huggingface_dir = true)
    ∧ (get_disk_usage mgr0 fsTree).huggingface
        = ((fsTree.files.filter (fun f =>
            isUnder mgr0.huggingface_dir f.1 && f.1 != mgr0.huggingface_dir)).map
            (fun f => f.2)).sum
    ∧ get_disk_usage mgr0 fsTree = { total := 0, huggingface := 0, easyocr := 0 } :=
  ⟨by decide,
   (get_disk_usage_spec mgr0 fsTree).2.1 (by decide),
   (get_disk_usage_spec mgr0 fsTree).2.2.2.2.2 (by intro f hf; simp [fsTree] at hf)⟩

theorem clear_cache_success (st : ModelManager) (fs : FS)
    (h : fs.dirExists st.models_dir = true) :
    clear_cache st fs = (true, clearedFS st fs) := by
  simp [clear_cache, FS.pathExists, h, FS.rmtree, FS.mkdirParents, clearedFS]

theorem clearedFS_root (st : ModelManager) (fs : FS) :
    (clearedFS st fs).dirExists st.models_dir = true := by
  rw [dirExists_iff]
  simp only [clearedFS, List.mem_append]
  exact Or.inl (Or.inl (Or.inr (self_mem_ancestors _)))

theorem clearedFS_hf (st : ModelManager) (fs : FS) :
    (clearedFS st fs).dirExists st.huggingface_dir = true := by
  rw [dirExists_iff]
  simp only [clearedFS, List.mem_append]
  exact Or.inl (Or.inr (self_mem_ancestors _))

theorem clearedFS_ez (st : ModelManager) (fs : FS) :
    (clearedFS st fs).dirExists st.easyocr_dir = true := by
  rw [dirExists_iff]
  simp only [clearedFS, List.mem_append]
  exact Or.inr (self_mem_ancestors _)

/-- After a successful clear, nothing exists under the managed root at
depth two or more (the recreated directories all sit at depth at most
one below the root). -/
theorem clearedFS_shallow (st : ModelManager) (fs : FS) {q : FsPath}
    (hq : isUnder st.models_dir q = true)
    (hlen : st.models_dir.length + 1 < q.length) :
    (clearedFS st fs).pathExists q = false := by
  have hdir : (clearedFS st fs).dirExists q = false := by
    rw [Bool.eq_false_iff]
    intro hmem
    rw [dirExists_iff] at hmem
    simp only [clearedFS, List.mem_append] at hmem
    rcases hmem with ((hfil | ha) | hb) | hc
    · rw [List.mem_filter, hq] at hfil
      simp at hfil
    · have := length_le_of_mem_ancestors ha
      omega
    · have := length_le_of_mem_ancestors hb
      rw [ModelManager.huggingface_dir, List.length_append] at this
      simp only [List.length_singleton] at this
      omega
    · have := length_le_of_mem_ancestors hc
      rw [ModelManager.easyocr_dir, List.length_append] at this
      simp only [List.length_singleton] at this
      omega
  have hfile : (clearedFS st fs).fileExists q = false := by
    rw [Bool.eq_false_iff]
    intro hmem
    rw [fileExists_iff] at hmem
    obtain ⟨f, hf, hfq⟩ := hmem
    simp only [clearedFS, List.mem_filter] at hf
    rw [hfq, hq] at hf
    simp at hf
  simp [FS.pathExists, hdir, hfile]

/-- After a successful clear, a directory strictly below the managed root
has no children at all. -/
theorem clearedFS_childNames_nil (st : ModelManager) (fs : FS) {d : FsPath}
    (hmd : isUnder st.models_dir d = true)
    (hdep : st.models_dir.length < d.length) :
    (clearedFS st fs).childNames d = [] := by
  have hgone : ∀ q : FsPath, isUnder d q = true → q.length = d.length + 1 →
      (clearedFS st fs).pathExists q = false := by
    intro q h1 h2
    exact clearedFS_shallow st fs (isUnder_trans hmd h1) (by omega)
  unfold FS.childNames
  have h1 : ∀ p ∈ (clearedFS st fs).dirs,
      (if isUnder d p && p.length == d.length + 1
       then (p.drop d.length).head? else none) = none := by
    intro p hp
    by_cases hc : (isUnder d p && p.length == d.length + 1) = true
    · exfalso
      simp only [Bool.and_eq_true, beq_iff_eq] at hc
      have := hgone p hc.1 hc.2
      simp only [FS.pathExists, Bool.or_eq_false_iff] at this
      have hdx := this.1
      rw [Bool.eq_false_iff] at hdx
      exact hdx (dirExists_iff.2 hp)
    · rw [Bool.not_eq_true] at hc
      simp [hc]
  have h2 : ∀ f ∈ (clearedFS st fs).files,
      (if isUnder d f.1 && f.1.length == d.length + 1
       then (f.1.drop d.length).head? else none) = none := by
    intro f hf
    by_cases hc : (isUnder d f.1 && f.1.length == d.length + 1) = true
    · exfalso
      simp only [Bool.and_eq_true, beq_iff_eq] at hc
      have := hgone f.1 hc.1 hc.2
      simp only [FS.pathExists, Bool.or_eq_false_iff] at this
      have hfx := this.2
      rw [Bool.eq_false_iff] at hfx
      exact hfx (fileExists_iff.2 ⟨f, hf, rfl⟩)
    · rw [Bool.not_eq_true] at hc
      simp [hc]
  rw [List.filterMap_eq_nil_iff.2 h1, List.filterMap_eq_nil_iff.2 h2]
  rfl

/-- C2 amended: when the managed root exists as a directory beforehand,
`clearCache` succeeds and recreates the root and both required
subdirectories; if moreover the default system-wide caches (the default
hub cache and the default EasyOCR model directory) are absent, an
immediately following `getModelStatus` reports `downloaded=false` for
every descriptor whose backend lives under the managed tree (all
hub-backed and EasyOCR descriptors — i.e. all but "rapidocr").  Without
that proviso the probes fall back to the default caches and can report
`true`; without the root proviso nothing is recreated. -/
theorem clear_cache_then_status (w : World) (st : ModelManager)
    (hroot : w.fs.dirExists st.models_dir = true)
    (hdhf : (clearedFS st w.fs).pathExists (default_hf_cache w) = false)
    (hdez : (clearedFS st w.fs).pathExists (default_easyocr_path w) = false) :
    clear_cache st w.fs = (true, clearedFS st w.fs)
    ∧ (clearedFS st w.fs).dirExists st.models_dir = true
    ∧ (clearedFS st w.fs).dirExists st.huggingface_dir = true
    ∧ (clearedFS st w.fs).dirExists st.easyocr_dir = true
    ∧ ∀ s ∈ get_model_status { w with fs := clearedFS st w.fs } st,
        s.id ≠ "rapidocr" → s.downloaded = false := by
  have hhub : (clearedFS st w.fs).pathExists st.hub_cache = false := by
    apply clearedFS_shallow
    · rw [ModelManager.hub_cache, ModelManager.huggingface_dir, List.append_assoc]
      exact isUnder_append _ _
    · rw [ModelManager.hub_cache, ModelManager.huggingface_dir]
      simp
  have hprobeHF : ∀ repo sub,
      check_hf_model_exists { w with fs := clearedFS st w.fs } st repo sub = false := by
    intro repo sub
    cases he : w.hfImportErr with
    | some e => simp [check_hf_model_exists, he]
    | none =>
      have hdhf2 : (clearedFS st w.fs).pathExists
          (w.home ++ [".cache", "huggingface", "hub"]) = false := hdhf
      simp [check_hf_model_exists, he, default_hf_cache, hhub, hdhf2]
  have hch : (clearedFS st w.fs).childNames st.easyocr_dir = [] := by
    apply clearedFS_childNames_nil
    · exact isUnder_append _ _
    · simp [ModelManager.easyocr_dir]
  have hprobeEZ : ∀ lang,
      check_easyocr_model_exists { w with fs := clearedFS st w.fs } st (some lang) = false := by
    intro lang
    have hdez2 : (clearedFS st w.fs).pathExists
        (w.home ++ [".EasyOCR", "model"]) = false := hdez
    simp [check_easyocr_model_exists, FS.globChildren, hch, default_easyocr_path, hdez2]
  refine ⟨clear_cache_success st w.fs hroot, clearedFS_root st w.fs,
          clearedFS_hf st w.fs, clearedFS_ez st w.fs, ?_⟩
  intro s hs hne
  simp only [get_model_status, get_model_status_of, List.mem_map] at hs
  obtain ⟨p, hp, he⟩ := hs
  simp only [ MODELS_INFO, List.mem_cons, List.not_mem_nil, or_false] at hp
  rcases hp with h | h | h | h | h | h | h <;> rw [h] at he <;> rw [← he] at hne ⊢ <;>
    first
      | exact absurd rfl hne
      | simp [model_status_of, hprobeHF, hprobeEZ, check_ocr_model_exists]

/-- C2 counterexample: (scenario one) the managed root exists and the
default system-wide hub cache holds the "layout" repository; after
`clearCache()` returns true, `getModelStatus` reports `downloaded=true`
for "layout" (a hub-backed descriptor), because the probe falls back to
the default cache once the managed `hub` subdirectory is gone.
(Scenario two) when the root does not exist beforehand, `clearCache()`
returns true yet the required subdirectories do not exist afterwards. -/
theorem clear_cache_then_status_counterexample :
    ((clear_cache mgr0 c2world.fs).1 = true
      ∧ ∃ s ∈ get_model_status { c2world with fs := (clear_cache mgr0 c2world.fs).2 } mgr0,
          s.id = "layout" ∧ s.downloaded = true)
    ∧ (clear_cache mgr0 fsEmpty = (true, fsEmpty)
      ∧ fsEmpty.dirExists mgr0.huggingface_dir = false) := by
  constructor
  · exact ⟨by decide, by decide⟩
  · exact ⟨by decide, by decide⟩

theorem clear_cache_then_status_witness :
    clear_cache mgr0 fsTree = (true, clearedFS mgr0 fsTree)
    ∧ (clearedFS mgr0 fsTree).dirExists mgr0.models_dir = true
    ∧ (clearedFS mgr0 fsTree).dirExists mgr0.huggingface_dir = true
    ∧ (clearedFS mgr0 fsTree).dirExists mgr0.easyocr_dir = true
    ∧ ∀ s ∈ get_model_status { baseWorld with fs := clearedFS mgr0 fsTree } mgr0,
        s.id ≠ "rapidocr" → s.downloaded = false :=
  clear_cache_then_status { baseWorld with fs := fsTree } mgr0
    (by decide) (by decide) (by decide)

theorem remapUnder_isUnder {src dst p q : FsPath}
    (h : remapUnder src dst p = some q) : isUnder dst q = true := by
  unfold remapUnder at h
  split at h
  · injection h with h2
    rw [← h2]
    exact isUnder_append _ _
  · cases h

theorem beq_false_of_isUnder_false {dst q : FsPath}
    (h : isUnder dst q = false) : (dst == q) = false := by
  rw [beq_eq_false_iff_ne]
  intro he
  rw [he, isUnder_refl] at h
  cases h

theorem copytree_pathExists_frame (fs : FS) (src dst q : FsPath)
    (h : isUnder dst q = false) :
    (fs.copytree src dst).pathExists q = fs.pathExists q := by
  have hdq : (dst == q) = false := beq_false_of_isUnder_false h
  have hanyd : (fs.dirs.filterMap (remapUnder src dst)).any (fun d => d == q) = false := by
    rw [Bool.eq_false_iff]
    intro hc
    rw [List.any_eq_true] at hc
    obtain ⟨d, hd, hdq2⟩ := hc
    rw [List.mem_filterMap] at hd
    obtain ⟨p, _, hp⟩ := hd
    rw [beq_iff_eq] at hdq2
    rw [hdq2] at hp
    have := remapUnder_isUnder hp
    rw [h] at this
    cases this
  have hanyf : (fs.files.filterMap
      (fun f => (remapUnder src dst f.1).map (fun q2 => (q2, f.2)))).any
      (fun f => f.1 == q) = false := by
    rw [Bool.eq_false_iff]
    intro hc
    rw [List.any_eq_true] at hc
    obtain ⟨g, hg, hgq⟩ := hc
    rw [List.mem_filterMap] at hg
    obtain ⟨f, _, hf⟩ := hg
    cases hro : remapUnder src dst f.1 with
    | none => rw [hro] at hf; cases hf
    | some q2 =>
      rw [hro] at hf
      injection hf with h2
      rw [← h2] at hgq
      simp only [beq_iff_eq] at hgq
      have := remapUnder_isUnder hro
      rw [hgq, h] at this
      cases this
  simp only [FS.pathExists, FS.copytree, FS.dirExists, FS.fileExists,
    List.any_append, List.any_cons]
  rw [hdq, hanyd, hanyf]
  simp

theorem copyFile_pathExists_frame (fs : FS) (src dst q : FsPath)
    (h : (dst == q) = false) :
    (fs.copyFile src dst).pathExists q = fs.pathExists q := by
  simp only [FS.pathExists, FS.copyFile, FS.dirExists, FS.fileExists,
    List.any_append, List.any_cons, List.any_nil]
  rw [h]
  simp

theorem isUnder_append_singleton_ne {d : FsPath} {n m : String} (h : n ≠ m) :
    isUnder (d ++ [n]) (d ++ [m]) = false := by
  rw [Bool.eq_false_iff]
  intro hc
  have hlen : (d ++ [m]).length ≤ (d ++ [n]).length := by simp
  have h2 := eq_of_isUnder_of_length hc hlen
  have h3 : ([n] : List String) = [m] := by
    have := List.append_cancel_left h2
    exact this
  exact h (by injection h3)

theorem append_singleton_beq_false {d : FsPath} {n m : String} (h : n ≠ m) :
    ((d ++ [n]) == (d ++ [m])) = false := by
  rw [beq_eq_false_iff_ne]
  intro he
  exact h (by injection (List.append_cancel_left he))

theorem childNames_nodup (fs : FS) (d : FsPath) : (fs.childNames d).Nodup := by
  unfold FS.childNames
  exact List.nodup_dedup _

theorem copy_hf_item_results (w : World) (st : ModelManager) (cb : Bool)
    (s : CopyState) (n : String) :
    (copy_hf_item w st cb s n).results
      = s.results ++ (if (n.startsWith "models--"
          && !(s.fs.pathExists (st.hub_cache ++ [n]))) = true
        then [(n, (w.copytreeErr (default_hf_cache w ++ [n])).isNone)] else []) := by
  unfold copy_hf_item
  by_cases h1 : n.startsWith "models--" = true
  · by_cases h2 : s.fs.pathExists (st.hub_cache ++ [n]) = true
    · simp [h1, h2]
    · rw [Bool.not_eq_true] at h2
      cases hc : w.copytreeErr (default_hf_cache w ++ [n]) <;> simp [h1, h2, hc]
  · rw [Bool.not_eq_true] at h1
    simp [h1]

theorem copy_hf_item_fs_frame (w : World) (st : ModelManager) (cb : Bool)
    (s : CopyState) (n : String) (q : FsPath)
    (h : isUnder (st.hub_cache ++ [n]) q = false) :
    (copy_hf_item w st cb s n).fs.pathExists q = s.fs.pathExists q := by
  unfold copy_hf_item
  by_cases h1 : n.startsWith "models--" = true
  · by_cases h2 : s.fs.pathExists (st.hub_cache ++ [n]) = true
    · simp [h1, h2]
    · rw [Bool.not_eq_true] at h2
      cases hc : w.copytreeErr (default_hf_cache w ++ [n]) with
      | none => simp [h1, h2, hc, copytree_pathExists_frame _ _ _ _ h]
      | some e => simp [h1, h2, hc]
  · rw [Bool.not_eq_true] at h1
    simp [h1]

theorem copy_hf_fold (w : World) (st : ModelManager) (cb : Bool)
    (names : List String) (s : CopyState) (hnd : names.Nodup) :
    ((names.foldl (copy_hf_item w st cb) s).results
      = s.results
        ++ (names.filter (fun n => n.startsWith "models--"
            && !(s.fs.pathExists (st.hub_cache ++ [n])))).map
          (fun n => (n, (w.copytreeErr (default_hf_cache w ++ [n])).isNone)))
    ∧ (∀ q : FsPath, (∀ n ∈ names, isUnder (st.hub_cache ++ [n]) q = false) →
        (names.foldl (copy_hf_item w st cb) s).fs.pathExists q = s.fs.pathExists q) := by
  induction names generalizing s with
  | nil => exact ⟨by simp, fun q _ => rfl⟩
  | cons n rest ih =>
    rw [List.nodup_cons] at hnd
    obtain ⟨hnotin, hndrest⟩ := hnd
    have ihr := ih (copy_hf_item w st cb s n) hndrest
    constructor
    · rw [List.foldl_cons, ihr.1, copy_hf_item_results]
      have hfeq : rest.filter (fun m => m.startsWith "models--"
            && !((copy_hf_item w st cb s n).fs.pathExists (st.hub_cache ++ [m])))
          = rest.filter (fun m => m.startsWith "models--"
            && !(s.fs.pathExists (st.hub_cache ++ [m]))) := by
        apply List.filter_congr
        intro m hm
        rw [copy_hf_item_fs_frame w st cb s n (st.hub_cache ++ [m])
          (isUnder_append_singleton_ne (fun he => hnotin (by rw [he]; exact hm)))]
      rw [hfeq, List.filter_cons]
      by_cases hn : (n.startsWith "models--"
          && !(s.fs.pathExists (st.hub_cache ++ [n]))) = true
      · simp [hn]
      · rw [Bool.not_eq_true] at hn
        simp [hn]
    · intro q hq
      rw [List.foldl_cons,
        ihr.2 q (fun m hm => hq m (List.mem_cons_of_mem _ hm)),
        copy_hf_item_fs_frame w st cb s n q (hq n (List.mem_cons_self _ _))]

theorem copy_easyocr_item_results (w : World) (st : ModelManager) (cb : Bool)
    (s : CopyState) (n : String) :
    (copy_easyocr_item w st cb s n).results
      = s.results ++ (if (!(s.fs.pathExists (st.easyocr_dir ++ [n]))) = true
        then [("easyocr_" ++ n, (w.copy2Err (default_easyocr_path w ++ [n])).isNone)]
        else []) := by
  unfold copy_easyocr_item
  by_cases h2 : s.fs.pathExists (st.easyocr_dir ++ [n]) = true
  · simp [h2]
  · rw [Bool.not_eq_true] at h2
    cases hc : w.copy2Err (default_easyocr_path w ++ [n]) <;> simp [h2, hc]

theorem copy_easyocr_item_fs_frame (w : World) (st : ModelManager) (cb : Bool)
    (s : CopyState) (n : String) (q : FsPath)
    (h : ((st.easyocr_dir ++ [n]) == q) = false) :
    (copy_easyocr_item w st cb s n).fs.pathExists q = s.fs.pathExists q := by
  unfold copy_easyocr_item
  by_cases h2 : s.fs.pathExists (st.easyocr_dir ++ [n]) = true
  · simp [h2]
  · rw [Bool.not_eq_true] at h2
    cases hc : w.copy2Err (default_easyocr_path w ++ [n]) with
    | none => simp [h2, hc, copyFile_pathExists_frame _ _ _ _ h]
    | some e => simp [h2, hc]

theorem copy_easyocr_fold (w : World) (st : ModelManager) (cb : Bool)
    (names : List String) (s : CopyState) (hnd : names.Nodup) :
    (names.foldl (copy_easyocr_item w st cb) s).results
      = s.results
        ++ (names.filter (fun n => !(s.fs.pathExists (st.easyocr_dir ++ [n])))).map
          (fun n => ("easyocr_" ++ n, (w.copy2Err (default_easyocr_path w ++ [n])).isNone)) := by
  induction names generalizing s with
  | nil => simp
  | cons n rest ih =>
    rw [List.nodup_cons] at hnd
    obtain ⟨hnotin, hndrest⟩ := hnd
    rw [List.foldl_cons, ih (copy_easyocr_item w st cb s n) hndrest,
      copy_easyocr_item_results]
    have hfeq : rest.filter (fun m =>
          !((copy_easyocr_item w st cb s n).fs.pathExists (st.easyocr_dir ++ [m])))
        = rest.filter (fun m => !(s.fs.pathExists (st.easyocr_dir ++ [m]))) := by
      apply List.filter_congr
      intro m hm
      rw [copy_easyocr_item_fs_frame w st cb s n (st.easyocr_dir ++ [m])
        (append_singleton_beq_false (fun he => hnotin (by rw [he]; exact hm)))]
    rw [hfeq, List.filter_cons]
    by_cases hn : (!(s.fs.pathExists (st.easyocr_dir ++ [n]))) = true
    · simp [hn]
    · rw [Bool.not_eq_true] at hn
      simp [hn]

theorem copy_hf_phase_results (w : World) (st : ModelManager) (cb : Bool)
    (s : CopyState) :
    (copy_hf_phase w st cb s).results
      = s.results ++ (if s.fs.pathExists (default_hf_cache w) = true then
          (((s.fs.mkdirParents st.hub_cache).childNames (default_hf_cache w)).filter
            (fun n => n.startsWith "models--"
              && !((s.fs.mkdirParents st.hub_cache).pathExists (st.hub_cache ++ [n])))).map
            (fun n => (n, (w.copytreeErr (default_hf_cache w ++ [n])).isNone))
        else []) := by
  unfold copy_hf_phase
  by_cases h : s.fs.pathExists (default_hf_cache w) = true
  · simp only [h, if_true]
    exact (copy_hf_fold w st cb _ _ (childNames_nodup _ _)).1
  · rw [Bool.not_eq_true] at h
    simp [h]

theorem copy_easyocr_phase_results (w : World) (st : ModelManager) (cb : Bool)
    (s : CopyState) :
    (copy_easyocr_phase w st cb s).results
      = s.results ++ (if s.fs.pathExists (default_easyocr_path w) = true then
          ((s.fs.childNames (default_easyocr_path w)).filter
            (fun n => !(s.fs.pathExists (st.easyocr_dir ++ [n])))).map
            (fun n => ("easyocr_" ++ n, (w.copy2Err (default_easyocr_path w ++ [n])).isNone))
        else []) := by
  unfold copy_easyocr_phase
  by_cases h : s.fs.pathExists (default_easyocr_path w) = true
  · simp only [h, if_true]
    exact copy_easyocr_fold w st cb _ _ (childNames_nodup _ _)
  · rw [Bool.not_eq_true] at h
    simp [h]

/-- C3 amended: `copyFromCache` returns one verdict per attempted item,
in iteration order: hub entries are keyed by the copied entry's own
directory name (each starting with "models--"), while EasyOCR entries
are keyed by the copied file's name prefixed with "easyocr_" (not the
bare file name); a per-item copy failure is recorded as `false` under
that item's key (the verdict is exactly whether the copy oracle
succeeded) and never removes a later item from the batch.  No key is a
Registry model key by construction. -/
theorem copy_from_cache_results (w : World) (st : ModelManager) (hasCb : Bool) :
    (copy_from_cache w st hasCb).results
      = (if w.fs.pathExists (default_hf_cache w) = true then
          (((w.fs.mkdirParents st.hub_cache).childNames (default_hf_cache w)).filter
            (fun n => n.startsWith "models--"
              && !((w.fs.mkdirParents st.hub_cache).pathExists (st.hub_cache ++ [n])))).map
            (fun n => (n, (w.copytreeErr (default_hf_cache w ++ [n])).isNone))
        else [])
      ++ (if ((copy_hf_phase w st hasCb
            { results := [], msgs := [], fs := w.fs }).fs).pathExists
            (default_easyocr_path w) = true then
          ((((copy_hf_phase w st hasCb
              { results := [], msgs := [], fs := w.fs }).fs).childNames
              (default_easyocr_path w)).filter
            (fun n => !(((copy_hf_phase w st hasCb
                { results := [], msgs := [], fs := w.fs }).fs).pathExists
                (st.easyocr_dir ++ [n])))).map
            (fun n => ("easyocr_" ++ n, (w.copy2Err (default_easyocr_path w ++ [n])).isNone))
        else []) := by
  unfold copy_from_cache
  rw [copy_easyocr_phase_results, copy_hf_phase_results]
  rfl

/-- C3 counterexample: with a single file `en_g2.pth` in the default
EasyOCR model directory, `copyFromCache` records its verdict under the
key "easyocr_en_g2.pth", which is not the copied entry's own file name
(the directory's sole entry is named "en_g2.pth"). -/
theorem copy_from_cache_key_counterexample :
    ((copy_from_cache wC3 mgr0 true).results = [("easyocr_en_g2.pth", true)])
    ∧ (wC3.fs.childNames (default_easyocr_path wC3) = ["en_g2.pth"])
    ∧ ("easyocr_en_g2.pth" ∉ wC3.fs.childNames (default_easyocr_path wC3)) :=
  ⟨by decide, by decide, by decide⟩

end Docling
